import Mathlib

/-!
Shallow embedding of the climatology core of the Boerne water dashboard
(`boerne-water-supply/pycode`): the leap-aware julian calendar, the rolling
mean, the per-(site, julian day) percentile bands, the status classifier,
the history merge and the per-site fetch loop.

Modelling conventions:
* Python floats are modelled as `ℚ`; a pandas `NaN` (absent value) is
  `Option ℚ` with `none` for `NaN`.
* A Python comparison `x <= y` where `y` is `NaN` evaluates to `False`;
  this is captured by `leNaN` / `ltNaN` below.
* DataFrames are lists of rows (structures); `pd.concat` is list append;
  a left-join miss leaves `none` in the joined columns.
* Raised exceptions are modelled with `Option` / `Except`.
-/

set_option maxRecDepth 40000

namespace Boerne

/-- Python `x <= y` where `y` may be `NaN` (`none`): comparison with `NaN`
is `False`. -/
def leNaN (x : ℚ) : Option ℚ → Bool
  | some y => decide (x ≤ y)
  | none => false

/-- Python `x < y` where `y` may be `NaN` (`none`). -/
def ltNaN (x : ℚ) : Option ℚ → Bool
  | some y => decide (x < y)
  | none => false

/-- The percentile columns a current-conditions row carries after the left
join with the stats table (`flow10`..`flow90`); a field is `none` when the
join found no band (pandas fills `NaN`). -/
structure BandRow where
  flow10 : Option ℚ
  flow25 : Option ℚ
  flow50 : Option ℚ
  flow75 : Option ℚ
  flow90 : Option ℚ
deriving DecidableEq

/-- `StreamflowProcessor.determine_status` (use1_streamflow_data.py lines
143-158): `row['flow']` is the current value, `NaN` modelled as `none`. -/
def StreamflowProcessor.determine_status (flow : Option ℚ) (row : BandRow) : String :=
  match flow with
  | none => "unknown"
  | some f =>
    if leNaN f row.flow10 then "Extremely Dry"
    else if leNaN f row.flow25 then "Very Dry"
    else if ltNaN f row.flow50 then "Moderately Dry"
    else if ltNaN f row.flow75 then "Moderately Wet"
    else if ltNaN f row.flow90 then "Very Wet"
    else "Extremely Wet"

/-- `ReservoirDataProcessor.determine_status` (use1_reservoir_data.py lines
299-314): identical chain keyed on `row['percent_storage']`. -/
def ReservoirDataProcessor.determine_status (percent_storage : Option ℚ) (row : BandRow) : String :=
  match percent_storage with
  | none => "unknown"
  | some v =>
    if leNaN v row.flow10 then "Extremely Dry"
    else if leNaN v row.flow25 then "Very Dry"
    else if ltNaN v row.flow50 then "Moderately Dry"
    else if ltNaN v row.flow75 then "Moderately Wet"
    else if ltNaN v row.flow90 then "Very Wet"
    else "Extremely Wet"

/-- `GroundwaterProcessor.determine_status` (use1_groundwater_data.py lines
146-161): same boundaries, wetness labels inverted. -/
def GroundwaterProcessor.determine_status (current : Option ℚ) (stats : BandRow) : String :=
  match current with
  | none => "unknown"
  | some c =>
    if leNaN c stats.flow10 then "Extremely Wet"
    else if leNaN c stats.flow25 then "Very Wet"
    else if ltNaN c stats.flow50 then "Moderately Wet"
    else if ltNaN c stats.flow75 then "Moderately Dry"
    else if ltNaN c stats.flow90 then "Very Dry"
    else "Extremely Dry"

/-- The seven status strings the pipeline can emit. -/
def allStatuses : List String :=
  ["unknown", "Extremely Dry", "Very Dry", "Moderately Dry",
   "Moderately Wet", "Very Wet", "Extremely Wet"]

/-- The band row a left-join miss produces: every percentile column `NaN`. -/
def absentBand : BandRow :=
  { flow10 := none, flow25 := none, flow50 := none, flow75 := none, flow90 := none }

/-- Swap the wetness direction of a status label, fixing `unknown`. -/
def swapDryWet : String → String
  | "Extremely Dry" => "Extremely Wet"
  | "Very Dry" => "Very Wet"
  | "Moderately Dry" => "Moderately Wet"
  | "Moderately Wet" => "Moderately Dry"
  | "Very Wet" => "Very Dry"
  | "Extremely Wet" => "Extremely Dry"
  | s => s

/-- Length of month `m` (1-based) in a leap or non-leap year. -/
def monthLength (leap : Bool) (m : Nat) : Nat :=
  if m = 2 then (if leap then 29 else 28)
  else if m = 4 ∨ m = 6 ∨ m = 9 ∨ m = 11 then 30
  else 31

/-- All (month, day) pairs of a year in calendar order; models the
`pd.date_range(jan1, dec31)` used to build the julian reference (2021 for
the non-leap column, 2020 for the leap column). -/
def yearDates (leap : Bool) : List (Nat × Nat) :=
  (List.range 12).flatMap (fun m0 =>
    (List.range (monthLength leap (m0 + 1))).map (fun d0 => (m0 + 1, d0 + 1)))

/-- One row of the julian reference DataFrame: `day_month` strings are
modelled as (month, day) pairs, and the `NaN` the code leaves in
`julian_index` on the Feb-29 row is `none`. -/
structure JulianRow where
  day_month : Nat × Nat
  julian_index : Option Nat
  day_month_leap : Nat × Nat
  julian_index_leap : Nat
deriving DecidableEq

/-- `GlobalSetup.create_julian_reference` (global0_set_apis_libraries.py
lines 108-160): a 365-row table of 2021 dates indexed 1..365 in both
column pairs, a `('02-29', NaN, '02-29', 60)` row spliced in at position
59, and `julian_index_leap` rewritten to 61..366 from position 60 on. -/
def create_julian_reference : List JulianRow :=
  let base := (yearDates false).enum.map (fun p =>
    { day_month := p.2, julian_index := some (p.1 + 1),
      day_month_leap := p.2, julian_index_leap := p.1 + 1 : JulianRow })
  let feb29 : JulianRow :=
    { day_month := (2, 29), julian_index := none,
      day_month_leap := (2, 29), julian_index_leap := 60 }
  let inserted := base.take 59 ++ [feb29] ++ base.drop 59
  inserted.enum.map (fun p =>
    if 60 ≤ p.1 then { p.2 with julian_index_leap := p.1 + 1 } else p.2)

/-- `get_julian_day` (use1_reservoir_data.py lines 255-263): select the
leap or non-leap column pair, filter rows on the month-day key and take
`.iloc[0]` of the julian column.  The outer `none` is the `IndexError`
raised when no row matches (fatal); `some v` is the looked-up cell, itself
an `Option Nat` because the non-leap Feb-29 cell holds `NaN`. -/
def get_julian_day (ref : List JulianRow) (dm : Nat × Nat) (is_leap : Bool) :
    Option (Option Nat) :=
  if is_leap then
    (ref.find? (fun r => r.day_month_leap = dm)).map (fun r => some r.julian_index_leap)
  else
    (ref.find? (fun r => r.day_month = dm)).map (fun r => r.julian_index)

/-- Ordinal day of the year of (month, day) in a leap or non-leap year;
models the pandas `dt.dayofyear` used by
`StreamflowProcessor.update_streamflow_data` (use1_streamflow_data.py
line 196). -/
def dayofyear (leap : Bool) (m d : Nat) : Nat :=
  ((List.range (m - 1)).map (fun i => monthLength leap (i + 1))).sum + d

/-- One observation row of a domain history table. -/
structure Observation where
  site : String
  date : Nat
  value : ℚ
deriving DecidableEq

/-- The history merge performed before the climatology computation:
`all_data = pd.concat([self.old_data, new_data])`
(use1_reservoir_data.py line 334) and
`combined_data = pd.concat([self.historic_data, new_data], ...)`
(use1_streamflow_data.py lines 201-204); a plain concatenation. -/
def concat_histories (old_data new_data : List Observation) : List Observation :=
  old_data ++ new_data

/-- Number of rows of a table carrying the (site, date) key. -/
def countKey (rows : List Observation) (s : String) (d : Nat) : Nat :=
  (rows.filter (fun r => decide (r.site = s ∧ r.date = d))).length

/-- The per-site fetch loop of `update_streamflow_data`
(use1_streamflow_data.py lines 177-190) and `_fetch_district_data`
(use1_reservoir_data.py lines 212-247): each site's fetch either returns
data or raises; `_fetch_nwis_data` / `_fetch_reservoir_data` log and
re-raise, and the surrounding `try` re-raises as well, so the first raise
propagates out of the loop. -/
def fetch_all_sites {α : Type} (fetch : Nat → Except String α) :
    List Nat → Except String (List α)
  | [] => Except.ok []
  | s :: rest =>
    match fetch s with
    | Except.error e => Except.error e
    | Except.ok d =>
      match fetch_all_sites fetch rest with
      | Except.error e => Except.error e
      | Except.ok ds => Except.ok (d :: ds)

/-- `GlobalSetup.moving_average` (global0_set_apis_libraries.py lines
96-99): `pd.Series(data).rolling(window=window, min_periods=1).mean()`.
Pandas semantics: a trailing window of the `window` entries ending at each
index (truncated at the start), `NaN` entries excluded from the mean, and
a `NaN` output exactly when fewer than `min_periods = 1` non-`NaN` values
lie in the window. -/
def moving_average (data : List (Option ℚ)) (window : Nat) : List (Option ℚ) :=
  (List.range data.length).map (fun i =>
    let w := ((data.take (i + 1)).drop (i + 1 - window)).reduceOption
    if w.length = 0 then none else some (w.sum / (w.length : ℚ)))

/-- The window mean of the specification, phrased over the explicit index
range `max(0, i-window+1) .. i`: the mean of present values at those
indices, absent when none is present. -/
def window_mean (data : List (Option ℚ)) (window i : Nat) : Option ℚ :=
  let w := (List.range' (i + 1 - window) ((i + 1) - (i + 1 - window))).filterMap
    (fun j => data.getD j none)
  if w.length = 0 then none else some (w.sum / (w.length : ℚ))

/-- Linear interpolation between order statistics at fractional position
`h` of a (sorted) list: `s[floor h] + (h - floor h) * (s[floor h + 1] -
s[floor h])`, with the upper index clamped at the last element. -/
def interpH (s : List ℚ) (h : ℚ) : ℚ :=
  s.getD (Int.floor h).toNat 0 +
    (h - ((Int.floor h).toNat : ℚ)) *
      (s.getD ((Int.floor h).toNat + 1) (s.getD (Int.floor h).toNat 0)
        - s.getD (Int.floor h).toNat 0)

/-- `np.percentile(x, q)` with its default linear (type 7) method, as
called in the grouped aggregations: sort ascending, then interpolate at
fractional position `(n - 1) * q / 100`. -/
def percentile (xs : List ℚ) (q : ℚ) : ℚ :=
  interpH (List.insertionSort (· ≤ ·) xs)
    ((((List.insertionSort (· ≤ ·) xs).length : ℚ) - 1) * q / 100)

/-- Minimum of a list of values (`'min'` in the aggregation); the empty
case is unreachable because groups are non-empty. -/
def listMin : List ℚ → ℚ
  | [] => 0
  | x :: xs => xs.foldl min x

/-- Maximum of a list of values (`'max'` in the aggregation). -/
def listMax : List ℚ → ℚ
  | [] => 0
  | x :: xs => xs.foldl max x

/-- One row of the per-(site, julian day) stats table, after the renaming
to `['.., 'Nobs', 'min', 'flow10', ..., 'flow90', 'max']`. -/
structure StatsRow where
  Nobs : Nat
  min : ℚ
  flow10 : ℚ
  flow25 : ℚ
  flow50 : ℚ
  flow75 : ℚ
  flow90 : ℚ
  max : ℚ
deriving DecidableEq

/-- The aggregation applied to each (site, julian) group of values by
`StreamflowProcessor._calculate_flow_statistics` (use1_streamflow_data.py
lines 105-141), `GroundwaterProcessor.calculate_statistics`
(use1_groundwater_data.py lines 107-144) and
`ReservoirDataProcessor._calculate_statistics` (use1_reservoir_data.py
lines 272-297): count, min, the 10/25/50/75/90 `np.percentile`s, max. -/
def calculate_statistics_group (vals : List ℚ) : StatsRow :=
  { Nobs := vals.length
    min := listMin vals
    flow10 := percentile vals 10
    flow25 := percentile vals 25
    flow50 := percentile vals 50
    flow75 := percentile vals 75
    flow90 := percentile vals 90
    max := listMax vals }

/-- Julian-reference lookups agree with the ordinal day of year on every
valid non-leap date. -/
theorem julian_agrees_nonleap :
    ((yearDates false).all (fun p =>
      get_julian_day create_julian_reference p false
        = some (some (dayofyear false p.1 p.2)))) = true := by
  decide

/-- Julian-reference lookups agree with the ordinal day of year on every
valid leap date. -/
theorem julian_agrees_leap :
    ((yearDates true).all (fun p =>
      get_julian_day create_julian_reference p true
        = some (some (dayofyear true p.1 p.2)))) = true := by
  decide

/-- Ordinal days of non-leap dates lie in [1, 365]. -/
theorem dayofyear_bounds_nonleap :
    ((yearDates false).all (fun p =>
      1 ≤ dayofyear false p.1 p.2 ∧ dayofyear false p.1 p.2 ≤ 365)) = true := by
  decide

/-- Ordinal days of leap dates lie in [1, 366]. -/
theorem dayofyear_bounds_leap :
    ((yearDates true).all (fun p =>
      1 ≤ dayofyear true p.1 p.2 ∧ dayofyear true p.1 p.2 ≤ 366)) = true := by
  decide

/-- From March 1 on, the leap-year ordinal day is the non-leap ordinal day
plus one. -/
theorem dayofyear_leap_shift :
    ((yearDates true).all (fun p =>
      p.1 < 3 ∨ dayofyear true p.1 p.2 = dayofyear false p.1 p.2 + 1)) = true := by
  decide

/-- C1 (amended): the classifiers are total — every (current, band) pair,
including boundary ties and absent fields, yields exactly one of the seven
statuses and never raises, and an absent current value yields `unknown`;
but an absent band with a present current value falls through every `NaN`
comparison to the final `else`, yielding `Extremely Wet` (streamflow) and
`Extremely Dry` (groundwater), not `unknown`. -/
theorem classifier_totality (flow : Option ℚ) (row : BandRow) :
    (StreamflowProcessor.determine_status flow row ∈ allStatuses
      ∧ GroundwaterProcessor.determine_status flow row ∈ allStatuses)
    ∧ (flow = none →
        StreamflowProcessor.determine_status flow row = "unknown"
        ∧ GroundwaterProcessor.determine_status flow row = "unknown")
    ∧ (∀ f : ℚ, flow = some f →
        StreamflowProcessor.determine_status f absentBand = "Extremely Wet"
        ∧ GroundwaterProcessor.determine_status f absentBand = "Extremely Dry") := by
  refine ⟨?_, ?_, ?_⟩
  · constructor
    · rcases flow with _ | f
      · simp [StreamflowProcessor.determine_status, allStatuses]
      · unfold StreamflowProcessor.determine_status
        split <;> [skip; split_ifs] <;> simp [allStatuses]
    · rcases flow with _ | f
      · simp [GroundwaterProcessor.determine_status, allStatuses]
      · unfold GroundwaterProcessor.determine_status
        split <;> [skip; split_ifs] <;> simp [allStatuses]
  · rintro rfl
    exact ⟨rfl, rfl⟩
  · intro f _
    constructor
    · simp [StreamflowProcessor.determine_status, absentBand, leNaN, ltNaN]
    · simp [GroundwaterProcessor.determine_status, absentBand, leNaN, ltNaN]

/-- C1 witness: the classifier theorem applied at `current = 7`,
`band = absentBand`. -/
theorem classifier_totality_witness :
    StreamflowProcessor.determine_status (some 7) Boerne.absentBand = "Extremely Wet"
    ∧ GroundwaterProcessor.determine_status (some 7) Boerne.absentBand = "Extremely Dry" :=
  (classifier_totality (some 7) Boerne.absentBand).2.2 7 rfl

/-- C1 counterexample: with the band absent (all percentile columns `NaN`
after the failed left join) and a present current value, the streamflow
classifier returns `Extremely Wet`, not `unknown` as the claim states. -/
theorem classifier_band_absent_not_unknown :
    StreamflowProcessor.determine_status (some 7) Boerne.absentBand ≠ "unknown" := by
  decide

/-- C7: the groundwater classifier is the wetness-inverted variant of the
direct streamflow/reservoir classifier: for every present current value and
every band with all percentile fields present, all three test the same
boundaries with the same strictness, and the groundwater status is the
direct status with Dry and Wet swapped at each level. -/
theorem groundwater_classifier_inverted (f p10 p25 p50 p75 p90 : ℚ) :
    GroundwaterProcessor.determine_status (some f)
        ⟨some p10, some p25, some p50, some p75, some p90⟩
      = swapDryWet (StreamflowProcessor.determine_status (some f)
        ⟨some p10, some p25, some p50, some p75, some p90⟩)
    ∧ ReservoirDataProcessor.determine_status (some f)
        ⟨some p10, some p25, some p50, some p75, some p90⟩
      = StreamflowProcessor.determine_status (some f)
        ⟨some p10, some p25, some p50, some p75, some p90⟩ := by
  constructor
  · dsimp only [GroundwaterProcessor.determine_status, StreamflowProcessor.determine_status]
    split_ifs <;> rfl
  · rfl

/-- C3 (amended): for every valid calendar date, the julian lookup returns
a defined integer index equal to the ordinal day of year, lying in [1, 365]
for non-leap years (Dec-31 → 365; index 366 never occurs) and in [1, 366]
for leap years (Feb-29 → 60, Dec-31 → 366), with dates from Mar-1 onward
shifted by +1 relative to the non-leap column.  (The claim that a non-leap
year never yields index 60 fails: non-leap Mar-1 → 60.) -/
theorem day_index_range_and_leap_behavior (leap : Bool) (m d : Nat)
    (hmem : (m, d) ∈ yearDates leap) :
    get_julian_day create_julian_reference (m, d) leap
        = some (some (dayofyear leap m d))
    ∧ 1 ≤ dayofyear leap m d
    ∧ dayofyear leap m d ≤ (if leap then 366 else 365)
    ∧ (leap = true → 3 ≤ m → dayofyear true m d = dayofyear false m d + 1)
    ∧ get_julian_day create_julian_reference (12, 31) false = some (some 365)
    ∧ get_julian_day create_julian_reference (2, 29) true = some (some 60)
    ∧ get_julian_day create_julian_reference (12, 31) true = some (some 366) := by
  have hagree : get_julian_day create_julian_reference (m, d) leap
      = some (some (dayofyear leap m d)) := by
    cases leap with
    | false =>
      exact of_decide_eq_true (List.all_eq_true.mp julian_agrees_nonleap _ hmem)
    | true =>
      exact of_decide_eq_true (List.all_eq_true.mp julian_agrees_leap _ hmem)
  have hbounds : 1 ≤ dayofyear leap m d
      ∧ dayofyear leap m d ≤ (if leap then 366 else 365) := by
    cases leap with
    | false =>
      simpa using of_decide_eq_true (List.all_eq_true.mp dayofyear_bounds_nonleap _ hmem)
    | true =>
      simpa using of_decide_eq_true (List.all_eq_true.mp dayofyear_bounds_leap _ hmem)
  refine ⟨hagree, hbounds.1, hbounds.2, ?_, ?_, ?_, ?_⟩
  · rintro rfl hm
    have := of_decide_eq_true (List.all_eq_true.mp dayofyear_leap_shift _ hmem)
    rcases this with hlt | heq
    · omega
    · exact heq
  · exact of_decide_eq_true (List.all_eq_true.mp julian_agrees_nonleap _ (by decide))
  · exact of_decide_eq_true (List.all_eq_true.mp julian_agrees_leap _ (by decide))
  · exact of_decide_eq_true (List.all_eq_true.mp julian_agrees_leap _ (by decide))

/-- C3 witness: the day-index theorem applied at the leap date Feb-29. -/
theorem day_index_range_and_leap_behavior_witness :
    get_julian_day create_julian_reference (2, 29) true = some (some 60)
    ∧ 1 ≤ dayofyear true 2 29 ∧ dayofyear true 2 29 ≤ 366 := by
  have h := day_index_range_and_leap_behavior true 2 29 (by decide)
  refine ⟨h.2.2.2.2.2.1, h.2.1, ?_⟩
  simpa using h.2.2.1

/-- C3 counterexample: in a non-leap year, March 1 is the 60th day and the
julian lookup does return 60, contradicting the claim that a non-leap year
never yields index 60. -/
theorem day_index_nonleap_mar1_eq_60 :
    (3, 1) ∈ yearDates false
    ∧ get_julian_day create_julian_reference (3, 1) false = some (some 60) := by
  constructor
  · decide
  · exact of_decide_eq_true (List.all_eq_true.mp julian_agrees_nonleap _ (by decide))

/-- C8 (amended): the non-leap column of the julian reference does contain
a row keyed '02-29', but its `julian_index` cell is absent (`NaN`); looking
'02-29' up against the non-leap column therefore succeeds and silently
returns the absent value — it yields no numeric day index, but it is not
the fatal error the claim requires.  Month-day keys with no row at all do
fail fatally (`.iloc[0]` raises `IndexError`, modelled by the outer
`none`). -/
theorem julian_feb29_nonleap_lookup :
    get_julian_day create_julian_reference (2, 29) false = some none
    ∧ (create_julian_reference.find? (fun r => r.day_month = (2, 29))).isSome = true
    ∧ (∀ dm : Nat × Nat, (∀ r ∈ create_julian_reference, r.day_month ≠ dm) →
        get_julian_day create_julian_reference dm false = none) := by
  refine ⟨by decide, by decide, ?_⟩
  intro dm hmiss
  have hfind : create_julian_reference.find? (fun r => r.day_month = dm) = none := by
    rw [List.find?_eq_none]
    intro r hr
    simpa using hmiss r hr
  simp [get_julian_day, hfind]

/-- C8 witness: the lookup theorem's fatal-miss clause applied to the
month-day key (13, 1), which appears in no row. -/
theorem julian_feb29_nonleap_lookup_witness :
    get_julian_day create_julian_reference (13, 1) false = none :=
  julian_feb29_nonleap_lookup.2.2 (13, 1) (by decide)

/-- C8 counterexample: the non-leap column does have an entry for '02-29'
(with an absent index cell), and the lookup returns that absent value
silently instead of failing, contradicting the claim. -/
theorem julian_feb29_nonleap_entry_present :
    (create_julian_reference.find? (fun r => r.day_month = (2, 29))).isSome = true
    ∧ get_julian_day create_julian_reference (2, 29) false = some none := by
  exact ⟨by decide, by decide⟩

/-- C10: the two day-index implementations agree — for every valid
calendar date, the pandas-style ordinal day of year computed by the
streamflow pipeline equals the index produced by looking the month-day up
in the constructed julian reference (leap column for leap years, non-leap
column otherwise). -/
theorem dayofyear_agrees_with_julian_reference (leap : Bool) (m d : Nat)
    (hmem : (m, d) ∈ yearDates leap) :
    get_julian_day create_julian_reference (m, d) leap
      = some (some (dayofyear leap m d)) := by
  cases leap with
  | false =>
    exact of_decide_eq_true (List.all_eq_true.mp julian_agrees_nonleap _ hmem)
  | true =>
    exact of_decide_eq_true (List.all_eq_true.mp julian_agrees_leap _ hmem)

/-- C10 witness: the agreement theorem applied at the leap date Dec-31,
where both implementations give 366. -/
theorem dayofyear_agrees_with_julian_reference_witness :
    get_julian_day create_julian_reference (12, 31) true
      = some (some (dayofyear true 12 31)) :=
  dayofyear_agrees_with_julian_reference true 12 31 (by decide)

/-- The trailing window obtained by `take`/`drop` equals the entries at
the explicit index range `max(0, i-window+1) .. i`. -/
theorem slice_eq_range'_map (data : List (Option ℚ)) (window i : Nat)
    (hi : i < data.length) :
    (data.take (i + 1)).drop (i + 1 - window)
      = (List.range' (i + 1 - window) ((i + 1) - (i + 1 - window))).map
          (fun j => data.getD j none) := by
  apply List.ext_getElem
  · simp
    omega
  · intro t h1 h2
    simp only [List.getElem_drop, List.getElem_take, List.getElem_map,
      List.getElem_range']
    simp only [List.length_drop, List.length_take] at h1
    have hb : i + 1 - window + t < data.length := by omega
    simp [List.getD_eq_getElem?_getD, List.getElem?_eq_getElem hb, Nat.one_mul]

/-- Dropping the `Option` layer of a constant present list. -/
theorem reduceOption_replicate_some (k : Nat) (v : ℚ) :
    (List.replicate k (some v)).reduceOption = List.replicate k v := by
  induction k with
  | zero => rfl
  | succ k ih => simp [List.replicate_succ, List.reduceOption_cons_of_some, ih]

/-- Entry `i` of the rolling mean is the window mean at `i`. -/
theorem moving_average_getD (data : List (Option ℚ)) (i : Nat)
    (hi : i < data.length) :
    (moving_average data 7).getD i none = window_mean data 7 i := by
  have hlen : i < (List.range data.length).length := by simpa using hi
  simp only [moving_average, window_mean]
  rw [List.getD_eq_getElem?_getD,
    List.getElem?_eq_getElem (by simpa using hi), List.getElem_map,
    List.getElem_range, Option.getD_some]
  rw [slice_eq_range'_map data 7 i hi]
  simp only [List.reduceOption, List.filterMap_map, Function.id_comp]

/-- The rolling mean of a constant present series is that series. -/
theorem moving_average_const (n : Nat) (v : ℚ) :
    moving_average (List.replicate n (some v)) 7 = List.replicate n (some v) := by
  apply List.ext_getElem
  · simp [moving_average]
  · intro t h1 h2
    simp only [moving_average, List.length_replicate, List.getElem_map,
      List.getElem_range, List.take_replicate, List.drop_replicate,
      List.getElem_replicate]
    have ht : t < n := by simpa using h2
    have hmin : min (t + 1) n = t + 1 := by omega
    rw [hmin, reduceOption_replicate_some]
    have hk : (t + 1) - (t + 1 - 7) ≠ 0 := by omega
    simp only [List.length_replicate, List.sum_replicate, if_neg hk]
    have hknz : ((t + 1 - (t + 1 - 7) : Nat) : ℚ) ≠ 0 := by exact_mod_cast hk
    congr 1
    rw [nsmul_eq_mul]
    field_simp

/-- The first output entry of the rolling mean is determined by the first
input entry alone. -/
theorem moving_average_head (x : Option ℚ) (xs : List (Option ℚ)) :
    (moving_average (x :: xs) 7).headD none = x := by
  simp only [moving_average, List.length_cons, List.range_succ_eq_map,
    List.map_cons]
  simp only [List.headD_cons]
  cases x with
  | none => simp [List.reduceOption]
  | some a => simp [List.reduceOption]

/-- An output entry of the rolling mean is absent exactly when every input
entry in its window is absent. -/
theorem moving_average_none_iff (data : List (Option ℚ)) (i : Nat)
    (hi : i < data.length) :
    ((moving_average data 7).getD i none = none
      ↔ ∀ j, i + 1 - 7 ≤ j → j ≤ i → data.getD j none = none) := by
  have hw : (window_mean data 7 i = none) ↔
      ((List.range' (i + 1 - 7) ((i + 1) - (i + 1 - 7))).filterMap
        (fun j => data.getD j none)) = [] := by
    simp only [window_mean]
    split_ifs with hc
    · simpa using List.length_eq_zero.mp hc
    · constructor
      · intro h
        exact absurd h (by simp)
      · intro h
        exact absurd (by rw [h]; rfl) hc
  rw [moving_average_getD data i hi, hw, List.filterMap_eq_nil_iff]
  constructor
  · intro h j hj1 hj2
    exact h j (List.mem_range'_1.mpr ⟨hj1, by omega⟩)
  · intro h j hj
    obtain ⟨h1, h2⟩ := List.mem_range'_1.mp hj
    exact h j h1 (by omega)

/-- C6: `moving_average` with window 7 returns a same-length,
index-aligned output whose entry `i` is the mean of the present values at
indices max(0, i-6) .. i, absent exactly when no present value lies in
that window; consequently a constant series maps to itself and entry 0
depends only on entry 0 of the input. -/
theorem moving_average_spec (data : List (Option ℚ)) (v : ℚ) (n : Nat)
    (x : Option ℚ) (xs : List (Option ℚ)) (i : Nat) (hi : i < data.length) :
    (moving_average data 7).length = data.length
    ∧ (moving_average data 7).getD i none = window_mean data 7 i
    ∧ ((moving_average data 7).getD i none = none
        ↔ ∀ j, i + 1 - 7 ≤ j → j ≤ i → data.getD j none = none)
    ∧ moving_average (List.replicate n (some v)) 7 = List.replicate n (some v)
    ∧ (moving_average (x :: xs) 7).headD none = x :=
  ⟨by simp [moving_average], moving_average_getD data i hi,
   moving_average_none_iff data i hi, moving_average_const n v,
   moving_average_head x xs⟩

/-- C6 witness: the rolling-mean theorem applied to the series
`[some 1, none]` at index 0 (and the constant series of length 2). -/
theorem moving_average_spec_witness :
    (moving_average [some 1, none] 7).length = ([some 1, none] : List (Option ℚ)).length
    ∧ (moving_average [some 1, none] 7).getD 0 none = window_mean [some 1, none] 7 0
    ∧ ((moving_average [some 1, none] 7).getD 0 none = none
        ↔ ∀ j, 0 + 1 - 7 ≤ j → j ≤ 0 → ([some 1, none] : List (Option ℚ)).getD j none = none)
    ∧ moving_average (List.replicate 2 (some (1 : ℚ))) 7 = List.replicate 2 (some 1)
    ∧ (moving_average (some 1 :: ([none] : List (Option ℚ))) 7).headD none = some 1 :=
  moving_average_spec [some 1, none] 1 2 (some 1) [none] 0 (by decide)

/-- C4 (amended): the combine step is a plain concatenation with no
de-duplication — every row of the loaded history and every freshly fetched
row is retained, so a (site, date) key occurring in both tables appears in
the combined data once per occurrence in each table, and the older value is
not replaced by the newer one. -/
theorem concat_merge_counts (old_data new_data : List Observation)
    (s : String) (d : Nat) :
    countKey (concat_histories old_data new_data) s d
      = countKey old_data s d + countKey new_data s d
    ∧ (concat_histories old_data new_data).length
      = old_data.length + new_data.length := by
  constructor
  · simp [countKey, concat_histories, List.filter_append]
  · simp [concat_histories]

/-- C4 counterexample: a history table and a new-observations table that
share the (site, date) key ("A", 1) with different values combine into a
table holding two rows for that key, not the single newer-value row the
claim requires. -/
theorem concat_merge_duplicate_not_deduped :
    countKey (concat_histories [{ site := "A", date := 1, value := 5 }]
        [{ site := "A", date := 1, value := 6 }]) "A" 1 = 2
    ∧ (2 : Nat) ≠ 1 := by
  exact ⟨by decide, by decide⟩

/-- C9 (amended): there is no partial-failure isolation — when the fetch
for any site in the list fails, the exception propagates and the whole run
aborts with that failure, updating no site; only a run in which every
site's fetch succeeds completes, and it then processes every site. -/
theorem fetch_failure_aborts_run {α : Type} (fetch : Nat → Except String α)
    (sites : List Nat) :
    (∀ s ∈ sites, ∀ e, fetch s = Except.error e →
      ∃ e2, fetch_all_sites fetch sites = Except.error e2)
    ∧ ((∀ s ∈ sites, ∃ d, fetch s = Except.ok d) →
      ∃ ds, fetch_all_sites fetch sites = Except.ok ds
        ∧ ds.length = sites.length) := by
  induction sites with
  | nil => exact ⟨by simp, fun _ => ⟨[], rfl, rfl⟩⟩
  | cons t rest ih =>
    constructor
    · intro s hs e he
      rcases List.mem_cons.mp hs with rfl | hs2
      · exact ⟨e, by simp [fetch_all_sites, he]⟩
      · cases ht : fetch t with
        | error e3 => exact ⟨e3, by simp [fetch_all_sites, ht]⟩
        | ok d =>
          obtain ⟨e2, he2⟩ := ih.1 s hs2 e he
          exact ⟨e2, by simp [fetch_all_sites, ht, he2]⟩
    · intro hok
      obtain ⟨d, hd⟩ := hok t (by simp)
      obtain ⟨ds, hds, hlen⟩ := ih.2 (fun s hs => hok s (by simp [hs]))
      exact ⟨d :: ds, by simp [fetch_all_sites, hd, hds], by simp [hlen]⟩

/-- C9 witness: the abort theorem applied to a two-site run whose first
fetch fails, and to a two-site run whose fetches both succeed. -/
theorem fetch_failure_aborts_run_witness :
    (∃ e2, fetch_all_sites
      (fun s => if s = 1 then Except.error "UpstreamFetchError" else Except.ok (0 : ℚ))
      [1, 2] = Except.error e2) := by
  refine (fetch_failure_aborts_run _ [1, 2]).1 1 (by decide) "UpstreamFetchError" rfl

/-- C9 counterexample: in a run over sites 1 and 2 where only site 1's
fetch fails, the whole run aborts with that failure — site 2 is not
processed, contradicting the claim that the remaining sites continue and
the run completes with fewer updated sites. -/
theorem fetch_failure_not_isolated :
    fetch_all_sites
      (fun s => if s = 1 then Except.error "UpstreamFetchError" else Except.ok (0 : ℚ))
      [1, 2] = Except.error "UpstreamFetchError" := rfl

theorem getD_default_irrel (s : List ℚ) (k : Nat) (d : ℚ) (hk : k < s.length) :
    s.getD k d = s.getD k 0 := by
  rw [List.getD_eq_getElem?_getD, List.getElem?_eq_getElem hk,
    List.getD_eq_getElem?_getD, List.getElem?_eq_getElem hk]
  rfl

theorem getD_of_le (s : List ℚ) (k : Nat) (d : ℚ) (hk : s.length ≤ k) :
    s.getD k d = d := by
  rw [List.getD_eq_getElem?_getD, List.getElem?_eq_none hk, Option.getD_none]

theorem getD_mem {s : List ℚ} {k : Nat} (hk : k < s.length) : s.getD k 0 ∈ s := by
  rw [List.getD_eq_getElem?_getD, List.getElem?_eq_getElem hk, Option.getD_some]
  exact s.getElem_mem hk

theorem sorted_getD_mono {s : List ℚ} (hs : List.Sorted (· ≤ ·) s) {i j : Nat}
    (hij : i ≤ j) (hj : j < s.length) : s.getD i 0 ≤ s.getD j 0 := by
  rcases Nat.eq_or_lt_of_le hij with rfl | hlt
  · exact le_refl _
  · have hi : i < s.length := lt_trans hlt hj
    rw [List.getD_eq_getElem?_getD, List.getElem?_eq_getElem hi, Option.getD_some,
      List.getD_eq_getElem?_getD, List.getElem?_eq_getElem hj, Option.getD_some]
    have h2 := hs.rel_get_of_lt (a := ⟨i, hi⟩) (b := ⟨j, hj⟩) hlt
    simpa using h2

theorem floor_facts {n : Nat} (hn : 1 ≤ n) {h : ℚ} (h0 : 0 ≤ h)
    (hup : h ≤ (n : ℚ) - 1) :
    ((((Int.floor h).toNat : ℚ) ≤ h ∧ h < ((Int.floor h).toNat : ℚ) + 1)
      ∧ (Int.floor h).toNat ≤ n - 1) := by
  have hf0 : 0 ≤ Int.floor h := Int.floor_nonneg.mpr h0
  have hcast : (((Int.floor h).toNat : ℕ) : ℚ) = ((Int.floor h : ℤ) : ℚ) := by
    rw [← Int.cast_natCast, Int.toNat_of_nonneg hf0]
  have hfl : ((Int.floor h : ℤ) : ℚ) ≤ h := Int.floor_le h
  have hfl2 : h < ((Int.floor h : ℤ) : ℚ) + 1 := Int.lt_floor_add_one h
  have hle : Int.floor h ≤ (n : ℤ) - 1 := by
    have h2 : h ≤ (((n : ℤ) - 1 : ℤ) : ℚ) := by push_cast; linarith
    have h3 := Int.floor_le_floor h2
    rwa [Int.floor_intCast] at h3
  refine ⟨⟨by rw [hcast]; exact hfl, by rw [hcast]; exact hfl2⟩, by omega⟩

theorem interpH_ge {s : List ℚ} (hs : List.Sorted (· ≤ ·) s) (hn : 1 ≤ s.length)
    {h : ℚ} (h0 : 0 ≤ h) (hup : h ≤ (s.length : ℚ) - 1) :
    s.getD (Int.floor h).toNat 0 ≤ interpH s h := by
  obtain ⟨⟨hih, hfr⟩, hile⟩ := floor_facts hn h0 hup
  unfold interpH
  rcases lt_or_ge ((Int.floor h).toNat + 1) s.length with hlt | hge
  · rw [getD_default_irrel _ _ _ hlt]
    have hlohi := sorted_getD_mono hs (Nat.le_succ (Int.floor h).toNat) hlt
    nlinarith [mul_nonneg (by linarith : (0:ℚ) ≤ h - ((Int.floor h).toNat : ℚ))
      (by linarith : (0:ℚ) ≤ s.getD ((Int.floor h).toNat + 1) 0 - s.getD (Int.floor h).toNat 0)]
  · rw [getD_of_le _ _ _ hge]
    simp

theorem interpH_le_hi {s : List ℚ} (hs : List.Sorted (· ≤ ·) s) (hn : 1 ≤ s.length)
    {h : ℚ} (h0 : 0 ≤ h) (hup : h ≤ (s.length : ℚ) - 1)
    (hlt : (Int.floor h).toNat + 1 < s.length) :
    interpH s h ≤ s.getD ((Int.floor h).toNat + 1) 0 := by
  obtain ⟨⟨hih, hfr⟩, hile⟩ := floor_facts hn h0 hup
  unfold interpH
  rw [getD_default_irrel _ _ _ hlt]
  have hlohi := sorted_getD_mono hs (Nat.le_succ (Int.floor h).toNat) hlt
  nlinarith [mul_nonneg (by linarith : (0:ℚ) ≤ 1 - (h - ((Int.floor h).toNat : ℚ)))
    (by linarith : (0:ℚ) ≤ s.getD ((Int.floor h).toNat + 1) 0 - s.getD (Int.floor h).toNat 0)]

theorem interpH_edge {s : List ℚ} {h : ℚ}
    (hge : s.length ≤ (Int.floor h).toNat + 1) :
    interpH s h = s.getD (Int.floor h).toNat 0 := by
  unfold interpH
  rw [getD_of_le _ _ _ hge]
  ring

theorem interpH_mono {s : List ℚ} (hs : List.Sorted (· ≤ ·) s) (hn : 1 ≤ s.length)
    {h1 h2 : ℚ} (h0 : 0 ≤ h1) (h12 : h1 ≤ h2) (hup : h2 ≤ (s.length : ℚ) - 1) :
    interpH s h1 ≤ interpH s h2 := by
  obtain ⟨⟨hi1h, hf1⟩, hi1le⟩ := floor_facts hn h0 (le_trans h12 hup)
  obtain ⟨⟨hi2h, hf2⟩, hi2le⟩ := floor_facts hn (le_trans h0 h12) hup
  have hi12 : (Int.floor h1).toNat ≤ (Int.floor h2).toNat := by
    have h3 := Int.floor_le_floor h12
    omega
  rcases Nat.eq_or_lt_of_le hi12 with heq | hlt
  · rcases lt_or_ge ((Int.floor h2).toNat + 1) s.length with hlt2 | hge2
    · unfold interpH
      rw [heq, getD_default_irrel _ _ _ hlt2]
      have hlohi := sorted_getD_mono hs (Nat.le_succ (Int.floor h2).toNat) hlt2
      rw [heq] at hi1h
      nlinarith [mul_nonneg (by linarith : (0:ℚ) ≤ h2 - h1)
        (by linarith : (0:ℚ) ≤ s.getD ((Int.floor h2).toNat + 1) 0 - s.getD (Int.floor h2).toNat 0)]
    · rw [interpH_edge (by omega), interpH_edge hge2, heq]
  · have hmid : (Int.floor h1).toNat + 1 < s.length := by omega
    calc interpH s h1 ≤ s.getD ((Int.floor h1).toNat + 1) 0 :=
          interpH_le_hi hs hn h0 (le_trans h12 hup) hmid
      _ ≤ s.getD (Int.floor h2).toNat 0 := sorted_getD_mono hs (by omega) (by omega)
      _ ≤ interpH s h2 := interpH_ge hs hn (le_trans h0 h12) hup

theorem listMin_le {xs : List ℚ} {x : ℚ} (hx : x ∈ xs) : listMin xs ≤ x := by
  have key : ∀ (l : List ℚ) (a : ℚ), l.foldl min a ≤ a ∧ ∀ y ∈ l, l.foldl min a ≤ y := by
    intro l
    induction l with
    | nil => intro a; exact ⟨le_refl a, by simp⟩
    | cons z zs ih =>
      intro a
      refine ⟨le_trans (ih (min a z)).1 (min_le_left a z), ?_⟩
      intro y hy
      rcases List.mem_cons.mp hy with rfl | hy2
      · exact le_trans (ih (min a y)).1 (min_le_right a y)
      · exact (ih (min a z)).2 y hy2
  rcases xs with _ | ⟨z, zs⟩
  · cases hx
  · rcases List.mem_cons.mp hx with rfl | hx2
    · exact (key zs x).1
    · exact (key zs z).2 x hx2

theorem le_listMax {xs : List ℚ} {x : ℚ} (hx : x ∈ xs) : x ≤ listMax xs := by
  have key : ∀ (l : List ℚ) (a : ℚ), a ≤ l.foldl max a ∧ ∀ y ∈ l, y ≤ l.foldl max a := by
    intro l
    induction l with
    | nil => intro a; exact ⟨le_refl a, by simp⟩
    | cons z zs ih =>
      intro a
      refine ⟨le_trans (le_max_left a z) (ih (max a z)).1, ?_⟩
      intro y hy
      rcases List.mem_cons.mp hy with rfl | hy2
      · exact le_trans (le_max_right a y) (ih (max a y)).1
      · exact (ih (max a z)).2 y hy2
  rcases xs with _ | ⟨z, zs⟩
  · cases hx
  · rcases List.mem_cons.mp hx with rfl | hx2
    · exact (key zs x).1
    · exact (key zs z).2 x hx2

theorem percentile_mono (xs : List ℚ) (hxs : xs ≠ []) {q1 q2 : ℚ}
    (hq0 : 0 ≤ q1) (hq12 : q1 ≤ q2) (hq100 : q2 ≤ 100) :
    percentile xs q1 ≤ percentile xs q2 := by
  have hn : 1 ≤ (List.insertionSort (· ≤ ·) xs).length := by
    rw [List.length_insertionSort]
    exact List.length_pos.mpr hxs
  have hs : List.Sorted (· ≤ ·) (List.insertionSort (· ≤ ·) xs) :=
    List.sorted_insertionSort _ xs
  have hnn : (0:ℚ) ≤ ((List.insertionSort (· ≤ ·) xs).length : ℚ) - 1 := by
    have h1 : (1:ℚ) ≤ ((List.insertionSort (· ≤ ·) xs).length : ℚ) := by exact_mod_cast hn
    linarith
  unfold percentile
  apply interpH_mono hs hn
  · exact div_nonneg (mul_nonneg hnn hq0) (by norm_num)
  · exact (div_le_div_iff_of_pos_right (by norm_num : (0:ℚ) < 100)).mpr
      (mul_le_mul_of_nonneg_left hq12 hnn)
  · rw [div_le_iff₀ (by norm_num : (0:ℚ) < 100)]
    nlinarith [mul_le_mul_of_nonneg_left hq100 hnn]

theorem percentile_between (xs : List ℚ) (hxs : xs ≠ []) {q : ℚ}
    (hq0 : 0 ≤ q) (hq100 : q ≤ 100) :
    listMin xs ≤ percentile xs q ∧ percentile xs q ≤ listMax xs := by
  have hn : 1 ≤ (List.insertionSort (· ≤ ·) xs).length := by
    rw [List.length_insertionSort]
    exact List.length_pos.mpr hxs
  have hs : List.Sorted (· ≤ ·) (List.insertionSort (· ≤ ·) xs) :=
    List.sorted_insertionSort _ xs
  have hnn : (0:ℚ) ≤ ((List.insertionSort (· ≤ ·) xs).length : ℚ) - 1 := by
    have h1 : (1:ℚ) ≤ ((List.insertionSort (· ≤ ·) xs).length : ℚ) := by exact_mod_cast hn
    linarith
  have h0 : 0 ≤ (((List.insertionSort (· ≤ ·) xs).length : ℚ) - 1) * q / 100 :=
    div_nonneg (mul_nonneg hnn hq0) (by norm_num)
  have hup : (((List.insertionSort (· ≤ ·) xs).length : ℚ) - 1) * q / 100
      ≤ ((List.insertionSort (· ≤ ·) xs).length : ℚ) - 1 := by
    rw [div_le_iff₀ (by norm_num : (0:ℚ) < 100)]
    nlinarith [mul_le_mul_of_nonneg_left hq100 hnn]
  obtain ⟨⟨hih, hfr⟩, hile⟩ := floor_facts hn h0 hup
  have hmem : ∀ {y : ℚ}, y ∈ List.insertionSort (· ≤ ·) xs → y ∈ xs := by
    intro y hy
    exact (List.perm_insertionSort (· ≤ ·) xs).mem_iff.mp hy
  have hin : (Int.floor ((((List.insertionSort (· ≤ ·) xs).length : ℚ) - 1) * q / 100)).toNat
      < (List.insertionSort (· ≤ ·) xs).length := by omega
  constructor
  · refine le_trans (listMin_le (hmem (getD_mem hin))) ?_
    exact interpH_ge hs hn h0 hup
  · unfold percentile
    rcases lt_or_ge
        ((Int.floor ((((List.insertionSort (· ≤ ·) xs).length : ℚ) - 1) * q / 100)).toNat + 1)
        (List.insertionSort (· ≤ ·) xs).length with hlt | hge
    · exact le_trans (interpH_le_hi hs hn h0 hup hlt) (le_listMax (hmem (getD_mem hlt)))
    · rw [interpH_edge hge]
      exact le_listMax (hmem (getD_mem hin))

/-- C5: for every band built by the per-(site, julian day) statistics
aggregation from a non-empty group of numeric values, the percentiles are
ordered p10 ≤ p25 ≤ p50 ≤ p75 ≤ p90 (non-strict), with min ≤ p10 and
p90 ≤ max. -/
theorem percentile_band_ordering (vals : List ℚ) (h : vals ≠ []) :
    (calculate_statistics_group vals).min ≤ (calculate_statistics_group vals).flow10
    ∧ (calculate_statistics_group vals).flow10 ≤ (calculate_statistics_group vals).flow25
    ∧ (calculate_statistics_group vals).flow25 ≤ (calculate_statistics_group vals).flow50
    ∧ (calculate_statistics_group vals).flow50 ≤ (calculate_statistics_group vals).flow75
    ∧ (calculate_statistics_group vals).flow75 ≤ (calculate_statistics_group vals).flow90
    ∧ (calculate_statistics_group vals).flow90 ≤ (calculate_statistics_group vals).max :=
  ⟨(percentile_between vals h (by norm_num) (by norm_num)).1,
    percentile_mono vals h (by norm_num) (by norm_num) (by norm_num),
    percentile_mono vals h (by norm_num) (by norm_num) (by norm_num),
    percentile_mono vals h (by norm_num) (by norm_num) (by norm_num),
    percentile_mono vals h (by norm_num) (by norm_num) (by norm_num),
    (percentile_between vals h (by norm_num) (by norm_num)).2⟩

/-- C5 witness: the ordering theorem applied to the concrete group
[3, 1, 2]. -/
theorem percentile_band_ordering_witness :
    (calculate_statistics_group [3, 1, 2]).min ≤ (calculate_statistics_group [3, 1, 2]).flow10
    ∧ (calculate_statistics_group [3, 1, 2]).flow10 ≤ (calculate_statistics_group [3, 1, 2]).flow25
    ∧ (calculate_statistics_group [3, 1, 2]).flow25 ≤ (calculate_statistics_group [3, 1, 2]).flow50
    ∧ (calculate_statistics_group [3, 1, 2]).flow50 ≤ (calculate_statistics_group [3, 1, 2]).flow75
    ∧ (calculate_statistics_group [3, 1, 2]).flow75 ≤ (calculate_statistics_group [3, 1, 2]).flow90
    ∧ (calculate_statistics_group [3, 1, 2]).flow90 ≤ (calculate_statistics_group [3, 1, 2]).max :=
  percentile_band_ordering [3, 1, 2] (by simp)

/-- C2 (amended): for the five-observation history with values
5, 10, 15, 20, 25 in one (site, day) group, the linear (type 7)
percentile estimator gives the band {Nobs 5, min 5, p10 7, p25 10, p50 15,
p75 20, p90 23, max 25} — not p10 = 5 and p90 = 25 as claimed — and
classifying current = 7 against that band with the direct mapping yields
"Extremely Dry" (7 ≤ p10 = 7), not "Very Dry". -/
theorem example_band_and_status :
    (calculate_statistics_group [5, 10, 15, 20, 25]).Nobs = 5
    ∧ (calculate_statistics_group [5, 10, 15, 20, 25]).min = 5
    ∧ (calculate_statistics_group [5, 10, 15, 20, 25]).flow10 = 7
    ∧ (calculate_statistics_group [5, 10, 15, 20, 25]).flow25 = 10
    ∧ (calculate_statistics_group [5, 10, 15, 20, 25]).flow50 = 15
    ∧ (calculate_statistics_group [5, 10, 15, 20, 25]).flow75 = 20
    ∧ (calculate_statistics_group [5, 10, 15, 20, 25]).flow90 = 23
    ∧ (calculate_statistics_group [5, 10, 15, 20, 25]).max = 25
    ∧ StreamflowProcessor.determine_status (some 7)
        { flow10 := some 7, flow25 := some 10, flow50 := some 15,
          flow75 := some 20, flow90 := some 23 } = "Extremely Dry" := by
  refine ⟨rfl, by norm_num [calculate_statistics_group, listMin],
    ?_, ?_, ?_, ?_, ?_, by norm_num [calculate_statistics_group, listMax], ?_⟩
  · norm_num [calculate_statistics_group, percentile, interpH, Int.toNat_ofNat]
  · norm_num [calculate_statistics_group, percentile, interpH, Int.toNat_ofNat]
  · norm_num [calculate_statistics_group, percentile, interpH,
      show Int.toNat 2 = 2 from rfl]
  · norm_num [calculate_statistics_group, percentile, interpH,
      show Int.toNat 3 = 3 from rfl]
  · norm_num [calculate_statistics_group, percentile, interpH,
      show Int.toNat 3 = 3 from rfl]
  · norm_num [StreamflowProcessor.determine_status, leNaN]

/-- C2 counterexample: the 10th percentile of [5, 10, 15, 20, 25] under
the linear (type 7) estimator used by `np.percentile` is 7, not the 5 the
claim asserts. -/
theorem example_band_p10_ne_claimed :
    (calculate_statistics_group [5, 10, 15, 20, 25]).flow10 = 7 ∧ (7 : ℚ) ≠ 5 := by
  constructor
  · norm_num [calculate_statistics_group, percentile, interpH, Int.toNat_ofNat]
  · norm_num

end Boerne
